import Mathlib

/-!
Verification of the CDC replication driver (`Replicator::Imp` in the
MaxScale repository).  The driver consumes a binary-log replication
stream, dispatches events to a statement executor and to per-table bulk
appliers, and persists a GTID checkpoint file.  External collaborators
(the SQL connection, the statement executor, the table appliers, the
filesystem and the query classifier) are modelled by oracles whose
outcomes are explicit parameters; all driver-side control flow is
translated statement by statement from the source.
-/

namespace Cdc

/-- Transaction identifier.  The source keeps GTIDs as strings rendered
`domain-server-sequence` (`to_gtid_string`) and re-parses them with
`mxs::strtok(s, "-")` plus `strtoull` on part 2; for well-formed triples
in canonical decimal rendering, string equality of part 0 coincides with
numeric equality of the domain and `strtoull` of part 2 yields the
sequence number, so the model carries the parsed triple directly. -/
structure Tid where
  domain : Nat
  server : Nat
  sequence : Nat
deriving DecidableEq, Repr

/-- Mode of the driver, `Replicator::Imp::State` in the source:
`BULK` while routing rows events, `STMT` while routing query events. -/
inductive DState
  | BULK
  | STMT
deriving DecidableEq, Repr

/-- Skip state, `Replicator::Imp::Skip` in the source. -/
inductive Skip
  | NONE
  | ALL
  | NEXT_TRX
  | NEXT_STMT
deriving DecidableEq, Repr

/-- Replication events, the variants of `MARIADB_RPL_EVENT` the driver
inspects.  `gtid` carries the rendered TID (`domain_id`, `server_id`,
`sequence_nr`) and the flag word tested against `IMPLICIT_COMMIT_FLAG`. -/
inductive REvent
  | gtid (tid : Tid) (flags : Nat)
  | xid (n : Nat)
  | tableMap (table_id : Nat) (db tbl : String)
  | query (db stmt : String)
  | writeRows (table_id : Nat)
  | updateRows (table_id : Nat)
  | deleteRows (table_id : Nat)
  | other
deriving DecidableEq, Repr

/-- The registry `m_tables`: an `std::unordered_map` from `table_id` to
`std::unique_ptr<Table>`.  A mapped value of `none` is a null
`unique_ptr` (which `operator[]` creates when the key is absent). -/
abbrev TableMapReg := List (Nat × Option Unit)

/-- Effects the driver sends to its collaborators, in program order:
commit calls on the executor and on each registry entry, an invocation
of `save_gtid_state` with `m_current_gtid`, enqueues, and the rollbacks
issued when the worker exits. -/
inductive Eff
  | commitExecutor
  | commitTable (id : Nat)
  | saveAttempt (tid : Option Tid)
  | enqExecutor (db stmt : String)
  | enqTable (id : Nat) (ev : REvent)
  | rollbackExecutor
  | rollbackTable (id : Nat)
deriving DecidableEq, Repr

/-- Content of the checkpoint file `./current_gtid.txt`: `none` when the
file is absent, `some none` when it exists but holds no token (empty or
whitespace only), `some (some t)` when its first token is the rendering
of `t`.  `m_current_gtid` may itself be the empty string, hence the
inner option on writes. -/
abbrev FileState := Option (Option Tid)

/-- The subset of `Config` the driver reads: `cnf.mariadb.gtid` (empty
string modelled as `none`) and the accepted-table set
`cnf.mariadb.tables` as `database.table` strings. -/
structure Config where
  gtid : Option Tid
  tables : List String

/-- Mutable driver state, the fields of `Replicator::Imp` the event loop
touches.  `connected` stands for `m_sql` being non-null. -/
structure Driver where
  gtid : Option Tid
  current_gtid : Option Tid
  running : Bool
  tables : TableMapReg
  state : DState
  implicit_commit : Bool
  skip : Skip
  connected : Bool
deriving DecidableEq, Repr

/-- Outcome of one invocation of the commit machinery: the executor's
`commit()` result, each table entry's `commit()` result (keyed by id;
the source calls `commit()` through the stored `unique_ptr` even when it
is null, which is undefined behaviour — theorems about commits restrict
to registries with no null entry), and success of the two steps of
`save_gtid_state` (writing the temporary file, renaming it). -/
structure CommitOutcome where
  executorOk : Bool
  tableOk : Nat → Bool
  tmpWriteOk : Bool
  renameOk : Bool

/-- Oracles for all collaborator behaviour: the outcome of the `k`-th
commit invocation, whether `Table::open` succeeds for a given table id
(`false` models the thrown `ColumnStoreError`), and the table names the
query classifier extracts from a statement. -/
structure Env where
  commit : Nat → CommitOutcome
  openTable : Nat → Bool
  queryTables : String → List String

/-- Translation of the free function `gtid_list_is_newer`: scan the
candidate list; on the first candidate whose domain part equals the
target's, with the target's sequence strictly below the candidate's,
return `true` (the source sets `rval = true; break;`); otherwise keep
scanning and finally return `false`. -/
def gtid_list_is_newer (gtid : Tid) : List Tid → Bool
  | [] => false
  | a :: rest =>
    if a.domain = gtid.domain then
      if gtid.sequence < a.sequence then true else gtid_list_is_newer gtid rest
    else gtid_list_is_newer gtid rest

/-- Wrapper used at the call site `gtid_list_is_newer(m_gtid, {gtid})`
in `should_process`: `m_gtid` is a string that is non-empty whenever the
skip machinery is active (an empty `m_gtid` would index the empty token
vector in the source).  An absent target is modelled as not-newer. -/
def gtid_is_newer_target (target : Option Tid) (c : Tid) : Bool :=
  match target with
  | some t => gtid_list_is_newer t [c]
  | none => false

/-- Lookup through `std::unordered_map::operator[]` as used on the rows
path (`m_tables[event->event.rows.table_id]`): returns the mapped value
and the registry after the lookup — when the key is absent, `operator[]`
inserts a value-initialised (null) `unique_ptr` for it. -/
def tablesLookupInsert (ts : TableMapReg) (id : Nat) : Option Unit × TableMapReg :=
  match ts with
  | [] => (none, [(id, none)])
  | e :: rest =>
    if e.1 = id then (e.2, e :: rest)
    else
      let r := tablesLookupInsert rest id
      (r.1, e :: r.2)

/-- Assignment through `operator[]` on the table-map path
(`m_tables[id] = Table::open(...)`): insert or replace the entry. -/
def tablesAssign (ts : TableMapReg) (id : Nat) (v : Option Unit) : TableMapReg :=
  match ts with
  | [] => [(id, v)]
  | e :: rest => if e.1 = id then (id, v) :: rest else e :: tablesAssign rest id v

/-- Translation of `Replicator::Imp::load_gtid_state`.  The source opens
`./current_gtid.txt` and extracts one token.  When the file is absent
the extraction fails and `errno == ENOENT` holds, so the function
returns `true` keeping the configured GTID.  When the file exists but
holds no token, extraction fails with the stream bad while `errno` is
untouched (not `ENOENT`), so the error branch is taken and the function
returns `false`.  When a token is read, it replaces `m_gtid`.  Returns
the success flag and the new `m_gtid`. -/
def load_gtid_state (file : FileState) (gtid : Option Tid) : Bool × Option Tid :=
  match file with
  | none => (true, gtid)
  | some none => (false, gtid)
  | some (some t) => (true, some t)

/-- Translation of `Replicator::Imp::save_gtid_state`: write
`m_current_gtid` to the `.tmp` file; if the stream is good, the result
is that of `rename`, which atomically replaces the checkpoint file.  On
any failure the checkpoint file is unchanged.  Returns the success flag
and the resulting file state. -/
def save_gtid_state (o : CommitOutcome) (cur : Option Tid) (file : FileState) :
    Bool × FileState :=
  if o.tmpWriteOk then
    if o.renameOk then (true, some cur) else (false, file)
  else (false, file)

/-- Result of `commit_transactions`: the returned flag, the checkpoint
file afterwards, and the effects issued. -/
structure CommitRes where
  ok : Bool
  file : FileState
  effs : List Eff
deriving Repr

/-- The table-commit loop of `commit_transactions`:
`for (auto& t : m_tables) if (!t.second->commit()) rval = false;` —
every entry's commit is invoked, and the accumulator is cleared on each
failure without breaking out of the loop. -/
def tableCommitFold (o : CommitOutcome) (ts : TableMapReg) (rval : Bool) : Bool :=
  ts.foldl (fun r e => if o.tableOk e.1 then r else false) rval

/-- Translation of `Replicator::Imp::commit_transactions`: commit the
executor, then every registry entry (collecting failures), and iff all
succeeded invoke `save_gtid_state` with `m_current_gtid`; the final
result is the save result in that case and `false` otherwise. -/
def commit_transactions (o : CommitOutcome) (ts : TableMapReg) (cur : Option Tid)
    (file : FileState) : CommitRes :=
  let rval := tableCommitFold o ts o.executorOk
  let baseEffs := Eff.commitExecutor :: ts.map (fun e => Eff.commitTable e.1)
  if rval then
    let s := save_gtid_state o cur file
    { ok := s.1, file := s.2, effs := baseEffs ++ [Eff.saveAttempt cur] }
  else
    { ok := false, file := file, effs := baseEffs }

/-- Boolean summary of a full commit outcome over a registry: the
executor, every entry, the temporary write and the rename all succeed.
`commit_transactions` returns exactly this value (see
`commit_transactions_ok`). -/
def commitResult (o : CommitOutcome) (ts : TableMapReg) : Bool :=
  o.executorOk && ts.all (fun e => o.tableOk e.1) && o.tmpWriteOk && o.renameOk

/-- Result of `set_state` / `process_one_event`: the returned flag, the
driver state, the checkpoint file, the next commit-invocation index and
the effects issued. -/
structure ProcRes where
  ok : Bool
  st : Driver
  file : FileState
  k : Nat
  effs : List Eff

/-- Translation of `Replicator::Imp::set_state`: when the requested mode
differs from the current one, run `commit_transactions`; only on its
success is `m_state` updated and `true` returned.  When the mode already
matches, succeed without committing. -/
def set_state (env : Env) (k : Nat) (st : Driver) (file : FileState) (s : DState) :
    ProcRes :=
  if st.state = s then
    { ok := true, st := st, file := file, k := k, effs := [] }
  else
    let c := commit_transactions (env.commit k) st.tables st.current_gtid file
    if c.ok then
      { ok := true, st := { st with state := s }, file := c.file, k := k + 1, effs := c.effs }
    else
      { ok := false, st := st, file := c.file, k := k + 1, effs := c.effs }

/-- Rows-event handler, the `WRITE_ROWS_EVENT_V1` / `UPDATE_ROWS_EVENT_V1`
/ `DELETE_ROWS_EVENT_V1` case of `process_one_event`: look the id up with
`operator[]` (inserting a null entry when absent); if the stored pointer
is non-null, require `BULK` mode via `set_state` and on success enqueue
the event to the entry; a null pointer short-circuits the condition and
leaves `rval` at `true`. -/
def handle_rows (env : Env) (k : Nat) (st : Driver) (file : FileState) (id : Nat)
    (e : REvent) : ProcRes :=
  let l := tablesLookupInsert st.tables id
  let st1 := { st with tables := l.2 }
  match l.1 with
  | some _ =>
    let r := set_state env k st1 file DState.BULK
    if r.ok then
      { r with effs := r.effs ++ [Eff.enqTable id e] }
    else
      r
  | none => { ok := true, st := st1, file := file, k := k, effs := [] }

/-- Translation of `Replicator::Imp::process_one_event`, the dispatch
switch.  `GTID_EVENT` latches `m_implicit_commit` when the flag word has
`IMPLICIT_COMMIT_FLAG` (bit 0) set and records `m_current_gtid`.
`XID_EVENT` commits and on success advances `m_gtid`.  `TABLE_MAP_EVENT`
opens (or replaces) the registry entry, failure being fatal.
`QUERY_EVENT` requires `STMT` mode, enqueues to the executor and, when
an implicit commit is pending, clears the flag, advances `m_gtid` and
commits.  Rows events are handled by `handle_rows`.  Other events are
ignored. -/
def process_one_event (env : Env) (k : Nat) (st : Driver) (file : FileState)
    (e : REvent) : ProcRes :=
  match e with
  | .gtid t flags =>
    let st1 := if flags % 2 = 1 then { st with implicit_commit := true } else st
    { ok := true, st := { st1 with current_gtid := some t }, file := file, k := k,
      effs := [] }
  | .xid _ =>
    let c := commit_transactions (env.commit k) st.tables st.current_gtid file
    if c.ok then
      { ok := true, st := { st with gtid := st.current_gtid }, file := c.file,
        k := k + 1, effs := c.effs }
    else
      { ok := false, st := st, file := c.file, k := k + 1, effs := c.effs }
  | .tableMap id _ _ =>
    if env.openTable id then
      { ok := true, st := { st with tables := tablesAssign st.tables id (some ()) },
        file := file, k := k, effs := [] }
    else
      { ok := false, st := st, file := file, k := k, effs := [] }
  | .query db stmt =>
    let r := set_state env k st file DState.STMT
    if r.ok then
      let st1 := r.st
      let effs := r.effs ++ [Eff.enqExecutor db stmt]
      if st1.implicit_commit then
        let st2 := { st1 with implicit_commit := false, gtid := st1.current_gtid }
        let c := commit_transactions (env.commit r.k) st2.tables st2.current_gtid r.file
        { ok := c.ok, st := st2, file := c.file, k := r.k + 1, effs := effs ++ c.effs }
      else
        { ok := true, st := st1, file := r.file, k := r.k, effs := effs }
    else
      r
  | .writeRows id => handle_rows env k st file id (.writeRows id)
  | .updateRows id => handle_rows env k st file id (.updateRows id)
  | .deleteRows id => handle_rows env k st file id (.deleteRows id)
  | .other => { ok := true, st := st, file := file, k := k, effs := [] }

/-- Whether an event is an `XID_EVENT`, as tested in `should_process`. -/
def isXid : REvent → Bool
  | .xid _ => true
  | _ => false

/-- Translation of `Replicator::Imp::should_process`.  While
`m_skip != NONE` the result is `false`; a `GTID_EVENT` matching `m_gtid`
moves `m_skip` to `NEXT_STMT` or `NEXT_TRX` by the implicit-commit flag,
a strictly newer one clears `m_running`, and any other event clears
`m_skip` when it is `NEXT_STMT`, or when it is `NEXT_TRX` and the event
is an `XID_EVENT`.  Otherwise, with an accepted-table set configured,
`TABLE_MAP_EVENT` passes iff `database.table` is accepted and
`QUERY_EVENT` passes iff every referenced table (unqualified names being
qualified with the event's database) is accepted.  Returns the verdict
and the updated state. -/
def should_process (cnf : Config) (env : Env) (st : Driver) (e : REvent) :
    Bool × Driver :=
  if st.skip ≠ Skip.NONE then
    match e with
    | .gtid t flags =>
      if some t = st.gtid then
        (false, { st with
          skip := if flags % 2 = 1 then Skip.NEXT_STMT else Skip.NEXT_TRX })
      else if gtid_is_newer_target st.gtid t then
        (false, { st with running := false })
      else
        (false, st)
    | _ =>
      if st.skip = Skip.NEXT_STMT || (st.skip = Skip.NEXT_TRX && isXid e) then
        (false, { st with skip := Skip.NONE })
      else
        (false, st)
  else if cnf.tables ≠ [] then
    match e with
    | .tableMap _ db tbl => (cnf.tables.contains (db ++ "." ++ tbl), st)
    | .query db stmt =>
      ((env.queryTables stmt).all fun tbl =>
        let q := if tbl.contains '.' then tbl else db ++ "." ++ tbl
        cnf.tables.contains q, st)
    | _ => (true, st)
  else
    (true, st)

/-- Result a fetch from the upstream can have in `process_events`: an
event, a null event with `errnum() == CR_SERVER_LOST`, or a null event
with any other error (the terminal case). -/
inductive Fetch
  | ev (e : REvent)
  | connLost
  | fatalErr
deriving DecidableEq, Repr

/-- Result of one loop iteration: new state, file, commit index, effects
and whether the iteration executed `break`. -/
structure IterRes where
  st : Driver
  file : FileState
  k : Nat
  effs : List Eff
  brk : Bool

/-- One iteration of the `while (m_running)` body of `process_events`,
given the fetch outcome.  The `connect()` at the top of the loop is
modelled as succeeding (failures only sleep and retry); it sets
`m_skip = ALL` when `m_gtid` is non-empty.  An event passes through
`should_process` and, if admitted, `process_one_event`; a processing
failure sets `m_running = false`.  `CR_SERVER_LOST` drops the session.
Any other fetch error logs and executes `break` — without touching
`m_running`. -/
def loop_iter (cnf : Config) (env : Env) (k : Nat) (st : Driver) (file : FileState)
    (f : Fetch) : IterRes :=
  let st0 :=
    if st.connected then st
    else { st with connected := true,
                   skip := if st.gtid.isSome then Skip.ALL else st.skip }
  match f with
  | .ev e =>
    let s := should_process cnf env st0 e
    if s.1 then
      let r := process_one_event env k s.2 file e
      if r.ok then
        { st := r.st, file := r.file, k := r.k, effs := r.effs, brk := false }
      else
        { st := { r.st with running := false }, file := r.file, k := r.k,
          effs := r.effs, brk := false }
    else
      { st := s.2, file := file, k := k, effs := [], brk := false }
  | .connLost =>
    { st := { st0 with connected := false }, file := file, k := k, effs := [],
      brk := false }
  | .fatalErr =>
    { st := st0, file := file, k := k, effs := [], brk := true }

/-- Final state of a run: driver state, checkpoint file and the effects
issued, in order. -/
structure RunRes where
  st : Driver
  file : FileState
  effs : List Eff
deriving Repr

/-- The `while (m_running)` loop of `process_events`, driven by a finite
script of fetch outcomes; the loop also ends when the script is
exhausted.  `m_running` is tested at the top of every iteration and
`break` ends the loop immediately. -/
def process_events_loop (cnf : Config) (env : Env) :
    List Fetch → Nat → Driver → FileState → List Eff → RunRes
  | [], _, st, file, acc => { st := st, file := file, effs := acc }
  | f :: rest, k, st, file, acc =>
    if st.running then
      let r := loop_iter cnf env k st file f
      if r.brk then
        { st := r.st, file := r.file, effs := acc ++ r.effs }
      else
        process_events_loop cnf env rest r.k r.st r.file (acc ++ r.effs)
    else
      { st := st, file := file, effs := acc }

/-- Translation of `Replicator::Imp::process_events`: load the GTID
state (failure clears `m_running`), run the loop, then roll back the
executor and every registry entry. -/
def process_events (cnf : Config) (env : Env) (script : List Fetch) (st : Driver)
    (file : FileState) : RunRes :=
  let l := load_gtid_state file st.gtid
  let st1 := { st with gtid := l.2, running := st.running && l.1 }
  let r := process_events_loop cnf env script 0 st1 file []
  { r with effs :=
      r.effs ++ Eff.rollbackExecutor :: r.st.tables.map (fun e => Eff.rollbackTable e.1) }

/-- Whether an effect list contains an enqueue to the statement
executor. -/
def hasEnqExecutor (effs : List Eff) : Bool :=
  effs.any fun x =>
    match x with
    | .enqExecutor _ _ => true
    | _ => false

/-- Whether an effect list contains an enqueue to a table entry. -/
def hasEnqTable (effs : List Eff) : Bool :=
  effs.any fun x =>
    match x with
    | .enqTable _ _ => true
    | _ => false

/-- Whether an effect list contains a checkpoint-write attempt. -/
def hasSaveAttempt (effs : List Eff) : Bool :=
  effs.any fun x =>
    match x with
    | .saveAttempt _ => true
    | _ => false

/-- The table-commit loop accumulates conjunctively: it equals the seed
conjoined with every entry's commit outcome. -/
theorem tableCommitFold_eq (o : CommitOutcome) (ts : TableMapReg) :
    ∀ b, tableCommitFold o ts b = (b && ts.all fun e => o.tableOk e.1) := by
  induction ts with
  | nil => intro b; simp [tableCommitFold]
  | cons e rest ih =>
    intro b
    have h : tableCommitFold o (e :: rest) b
        = tableCommitFold o rest (if o.tableOk e.1 then b else false) := rfl
    rw [h, ih]
    by_cases hc : o.tableOk e.1 <;> simp [hc, Bool.and_assoc]

/-- The flag returned by `commit_transactions` is exactly
`commitResult`: executor, every table, temporary write and rename all
succeeded. -/
theorem commit_transactions_ok (o : CommitOutcome) (ts : TableMapReg) (cur : Option Tid)
    (file : FileState) :
    (commit_transactions o ts cur file).ok = commitResult o ts := by
  unfold commit_transactions commitResult save_gtid_state
  rw [tableCommitFold_eq]
  by_cases h1 : o.executorOk <;> by_cases h2 : ts.all (fun e => o.tableOk e.1) <;>
    by_cases h3 : o.tmpWriteOk <;> by_cases h4 : o.renameOk <;>
      simp [h1, h2, h3, h4]

/-- The checkpoint file after `commit_transactions` is rewritten with
`m_current_gtid` when everything succeeded and is untouched
otherwise. -/
theorem commit_transactions_file (o : CommitOutcome) (ts : TableMapReg) (cur : Option Tid)
    (file : FileState) :
    (commit_transactions o ts cur file).file
      = if commitResult o ts then some cur else file := by
  unfold commit_transactions commitResult save_gtid_state
  rw [tableCommitFold_eq]
  by_cases h1 : o.executorOk <;> by_cases h2 : ts.all (fun e => o.tableOk e.1) <;>
    by_cases h3 : o.tmpWriteOk <;> by_cases h4 : o.renameOk <;>
      simp [h1, h2, h3, h4]

/-- Effects of `commit_transactions`: the executor commit, a commit per
registry entry, and a checkpoint-write attempt exactly when the executor
and every entry succeeded. -/
theorem commit_transactions_effs (o : CommitOutcome) (ts : TableMapReg) (cur : Option Tid)
    (file : FileState) :
    (commit_transactions o ts cur file).effs
      = Eff.commitExecutor :: ts.map (fun e => Eff.commitTable e.1)
          ++ (if o.executorOk && ts.all (fun e => o.tableOk e.1)
              then [Eff.saveAttempt cur] else []) := by
  unfold commit_transactions
  rw [tableCommitFold_eq]
  cases h : (o.executorOk && ts.all fun e => o.tableOk e.1) <;> simp [h]

/-- When `operator[]` finds the key, the registry is returned
unchanged. -/
theorem tablesLookupInsert_found (ts : TableMapReg) (id : Nat) :
    ∀ v, (tablesLookupInsert ts id).1 = some v → (tablesLookupInsert ts id).2 = ts := by
  induction ts with
  | nil => intro v h; simp [tablesLookupInsert] at h
  | cons e rest ih =>
    intro v h
    by_cases hc : e.1 = id
    · simp [tablesLookupInsert, hc]
    · simp only [tablesLookupInsert, if_neg hc] at h ⊢
      rw [ih v h]

/-- While `m_skip` is active, `should_process` rejects the event and
touches only `m_skip` and `m_running`. -/
theorem should_process_skip (cnf : Config) (env : Env) (st : Driver) (e : REvent)
    (hskip : st.skip ≠ Skip.NONE) :
    (should_process cnf env st e).1 = false ∧
    (should_process cnf env st e).2.tables = st.tables ∧
    (should_process cnf env st e).2.state = st.state ∧
    (should_process cnf env st e).2.current_gtid = st.current_gtid ∧
    (should_process cnf env st e).2.gtid = st.gtid ∧
    (should_process cnf env st e).2.implicit_commit = st.implicit_commit ∧
    (should_process cnf env st e).2.connected = st.connected := by
  unfold should_process
  cases e <;> simp [hskip] <;> split <;> simp_all <;> split <;> simp_all

/-- Configuration with no starting GTID and no table filter. -/
def cnf0 : Config := { gtid := none, tables := [] }

/-- Oracle in which every collaborator call succeeds and the query
classifier finds no table names. -/
def envAllOk : Env :=
  { commit := fun _ =>
      { executorOk := true, tableOk := fun _ => true, tmpWriteOk := true,
        renameOk := true },
    openTable := fun _ => true,
    queryTables := fun _ => [] }

/-- Oracle in which the executor commit and every table open fail. -/
def envFail : Env :=
  { commit := fun _ =>
      { executorOk := false, tableOk := fun _ => true, tmpWriteOk := true,
        renameOk := true },
    openTable := fun _ => false,
    queryTables := fun _ => [] }

/-- Driver state right after a clean start with no resume target: the
worker is connected and streaming with an empty registry. -/
def st0 : Driver :=
  { gtid := none, current_gtid := none, running := true, tables := [],
    state := DState.STMT, implicit_commit := false, skip := Skip.NONE,
    connected := true }

/-- C8: for every target TID and every set of candidate TIDs, all
well-formed as `d-s-n` triples, `gtid_list_is_newer` returns `true` iff
some candidate shares the target's domain and has a strictly greater
sequence number; candidates from other domains never make the result
true. -/
theorem gtid_list_is_newer_iff (t : Tid) (cands : List Tid) :
    gtid_list_is_newer t cands = true
      ↔ ∃ c ∈ cands, c.domain = t.domain ∧ t.sequence < c.sequence := by
  induction cands with
  | nil => simp [gtid_list_is_newer]
  | cons a rest ih =>
    unfold gtid_list_is_newer
    by_cases h1 : a.domain = t.domain
    · by_cases h2 : t.sequence < a.sequence
      · rw [if_pos h1, if_pos h2]
        exact iff_of_true rfl ⟨a, List.mem_cons_self a rest, h1, h2⟩
      · rw [if_pos h1, if_neg h2, ih]
        constructor
        · rintro ⟨c, hc, hd, hs⟩
          exact ⟨c, List.mem_cons_of_mem a hc, hd, hs⟩
        · rintro ⟨c, hc, hd, hs⟩
          rcases List.mem_cons.mp hc with rfl | hc
          · exact absurd hs h2
          · exact ⟨c, hc, hd, hs⟩
    · rw [if_neg h1, ih]
      constructor
      · rintro ⟨c, hc, hd, hs⟩
        exact ⟨c, List.mem_cons_of_mem a hc, hd, hs⟩
      · rintro ⟨c, hc, hd, hs⟩
        rcases List.mem_cons.mp hc with rfl | hc
        · exact absurd hd h1
        · exact ⟨c, hc, hd, hs⟩

/-- C6: an existing but empty checkpoint file is fatal to startup, in
contrast with an absent file.  The first token extraction fails on the
empty file while `errno` is not `ENOENT`, so `load_gtid_state` returns
`false` and `process_events` clears `m_running` before its loop — the
dead `!gtid.empty()` guard in the success branch shows the intended
behaviour was to treat the empty file like the absent one. -/
theorem empty_checkpoint_fatal :
    (∀ g : Option Tid, load_gtid_state (some none) g = (false, g)) ∧
    (∀ g : Option Tid, load_gtid_state none g = (true, g)) ∧
    (∀ cnf env script st,
      (process_events cnf env script st (some none)).st.running = false) := by
  refine ⟨fun g => rfl, fun g => rfl, fun cnf env script st => ?_⟩
  cases script <;>
    simp [process_events, process_events_loop, load_gtid_state]

/-- C9: a rows event whose `table_id` has no registry entry is accepted
as a success and enqueues nothing, but the `operator[]` lookup inserts a
null entry for that id into `m_tables` — an entry that the next
commit (or the shutdown rollback loop) then dereferences.  Evaluated at
the failing input: empty registry, `WRITE_ROWS_EVENT_V1` with table id
7. -/
theorem unknown_table_rows_inserts_null :
    (process_one_event envAllOk 0 st0 none (REvent.writeRows 7)).ok = true ∧
    (process_one_event envAllOk 0 st0 none (REvent.writeRows 7)).effs = [] ∧
    (process_one_event envAllOk 0 st0 none (REvent.writeRows 7)).st.state = st0.state ∧
    (process_one_event envAllOk 0 st0 none (REvent.writeRows 7)).st.tables
      = [(7, none)] ∧
    Eff.commitTable 7 ∈
      (commit_transactions (envAllOk.commit 1)
        (process_one_event envAllOk 0 st0 none (REvent.writeRows 7)).st.tables
        none none).effs := by
  decide

/-- C4 (amended): the skip machine moves `ALL` to `NEXT_STMT` or
`NEXT_TRX` on the matching `Gtid` according to its implicit-commit
flag, clears `NEXT_STMT` on the next event consumed provided that event
is not itself a `Gtid`, and clears `NEXT_TRX` on the next `Xid`.  A
`Gtid` event arriving under `NEXT_STMT` is instead captured by the
`GTID_EVENT` branch (re-matching the target or declaring fatal
newness), so it does not clear the skip state. -/
theorem skip_machine_transitions (cnf : Config) (env : Env) (st : Driver) :
    (∀ t flags, st.skip = Skip.ALL → some t = st.gtid →
      (should_process cnf env st (.gtid t flags)).2.skip
        = (if flags % 2 = 1 then Skip.NEXT_STMT else Skip.NEXT_TRX)) ∧
    (∀ e, st.skip = Skip.NEXT_STMT → (∀ t f, e ≠ REvent.gtid t f) →
      (should_process cnf env st e).2.skip = Skip.NONE) ∧
    (∀ n, st.skip = Skip.NEXT_TRX →
      (should_process cnf env st (.xid n)).2.skip = Skip.NONE) := by
  refine ⟨fun t flags hall hg => ?_, fun e hns hng => ?_, fun n htrx => ?_⟩
  · simp [should_process, hall, hg]
  · cases e with
    | gtid t f => exact absurd rfl (hng t f)
    | _ => simp [should_process, hns, isXid]
  · simp [should_process, htrx, isXid]

/-- Driver state resuming towards GTID `0-1-10`, already past `ALL`:
the matching implicit-commit `Gtid` has been seen and `m_skip` is
`NEXT_STMT`. -/
def stC4 : Driver := { st0 with skip := Skip.NEXT_STMT, gtid := some ⟨0, 1, 10⟩ }

/-- C4 counterexample: with `m_skip = NEXT_STMT` the next event
consumed, when it is the `Gtid` `0-1-11`, does not reset `m_skip` to
`NONE` — the `GTID_EVENT` branch captures it, finds it strictly newer
than the target and clears `m_running` instead. -/
theorem skip_next_stmt_counterexample :
    (should_process cnf0 envAllOk stC4 (REvent.gtid ⟨0, 1, 11⟩ 0)).2.skip
      = Skip.NEXT_STMT ∧
    (should_process cnf0 envAllOk stC4 (REvent.gtid ⟨0, 1, 11⟩ 0)).2.skip
      ≠ Skip.NONE ∧
    (should_process cnf0 envAllOk stC4 (REvent.gtid ⟨0, 1, 11⟩ 0)).2.running
      = false := by
  decide

/-- C4 witness: the three amended transitions observed on concrete
states: the matching flagged `Gtid` under `ALL` yields `NEXT_STMT`, a
rows event under `NEXT_STMT` clears the skip, and an `Xid` under
`NEXT_TRX` clears the skip. -/
theorem skip_machine_transitions_witness :
    (should_process cnf0 envAllOk { st0 with skip := Skip.ALL, gtid := some ⟨0, 1, 10⟩ }
        (.gtid ⟨0, 1, 10⟩ 1)).2.skip = Skip.NEXT_STMT ∧
    (should_process cnf0 envAllOk stC4 (.writeRows 3)).2.skip = Skip.NONE ∧
    (should_process cnf0 envAllOk { st0 with skip := Skip.NEXT_TRX, gtid := some ⟨0, 1, 10⟩ }
        (.xid 5)).2.skip = Skip.NONE := by
  refine ⟨?_, ?_, ?_⟩
  · have h := (skip_machine_transitions cnf0 envAllOk
      { st0 with skip := Skip.ALL, gtid := some ⟨0, 1, 10⟩ }).1
      ⟨0, 1, 10⟩ 1 rfl rfl
    simpa using h
  · exact (skip_machine_transitions cnf0 envAllOk stC4).2.1 (.writeRows 3) rfl
      (by intro t f h; exact REvent.noConfusion h)
  · exact (skip_machine_transitions cnf0 envAllOk
      { st0 with skip := Skip.NEXT_TRX, gtid := some ⟨0, 1, 10⟩ }).2.2 5 rfl

/-- C1: `commit_transactions` asks the executor to commit first, then
asks every open table entry to commit without short-circuiting on
failure, and it invokes the checkpoint rewrite with the current
transaction's TID iff the executor commit and every table commit
succeeded; when they did and the write protocol succeeds the file holds
that TID, and when any commit failed the file is untouched. -/
theorem commit_coordinator_correct (o : CommitOutcome) (ts : TableMapReg)
    (cur : Option Tid) (file : FileState)
    (hopen : ts.all (fun e => e.2.isSome) = true) :
    (commit_transactions o ts cur file).effs.head? = some Eff.commitExecutor ∧
    (ts.all fun e =>
      (commit_transactions o ts cur file).effs.contains (Eff.commitTable e.1)) = true ∧
    ((commit_transactions o ts cur file).effs.contains (Eff.saveAttempt cur)
      = (o.executorOk && ts.all fun e => o.tableOk e.1)) ∧
    (commitResult o ts = true → (commit_transactions o ts cur file).file = some cur) ∧
    ((o.executorOk && ts.all fun e => o.tableOk e.1) = false →
      (commit_transactions o ts cur file).file = file) ∧
    (commit_transactions o ts cur file).ok = commitResult o ts := by
  refine ⟨?_, ?_, ?_, ?_, ?_, commit_transactions_ok o ts cur file⟩
  · rw [commit_transactions_effs]; rfl
  · rw [commit_transactions_effs]
    rw [List.all_eq_true]
    intro e he
    simp only [List.contains, List.elem_iff, List.mem_cons, List.mem_append,
      List.mem_map]
    exact Or.inl (Or.inr ⟨e, he, rfl⟩)
  · rw [commit_transactions_effs]
    cases h : (o.executorOk && ts.all fun e => o.tableOk e.1) <;>
      simp [h, List.contains, List.elem_iff]
  · intro h
    rw [commit_transactions_file, if_pos h]
  · intro h
    rw [commit_transactions_file, commitResult]
    simp [h]

/-- Commit outcome in which table entry 1 fails to commit while the
executor, table entry 2 and the checkpoint write succeed. -/
def oPart : CommitOutcome :=
  { executorOk := true, tableOk := fun id => id != 1, tmpWriteOk := true,
    renameOk := true }

/-- C1 witness: with entries 1 and 2 open and entry 1 failing, the
executor is asked first, both entries are asked (no short-circuit), and
the checkpoint file stays untouched. -/
theorem commit_coordinator_witness :
    (commit_transactions oPart [(1, some ()), (2, some ())] (some ⟨0, 1, 5⟩) none).effs.head?
      = some Eff.commitExecutor ∧
    ([((1 : Nat), some ()), (2, some ())].all fun e =>
      (commit_transactions oPart [(1, some ()), (2, some ())] (some ⟨0, 1, 5⟩) none).effs.contains
        (Eff.commitTable e.1)) = true ∧
    (commit_transactions oPart [(1, some ()), (2, some ())] (some ⟨0, 1, 5⟩) none).file
      = none :=
  ⟨(commit_coordinator_correct oPart [(1, some ()), (2, some ())] (some ⟨0, 1, 5⟩) none
      (by decide)).1,
   (commit_coordinator_correct oPart [(1, some ()), (2, some ())] (some ⟨0, 1, 5⟩) none
      (by decide)).2.1,
   (commit_coordinator_correct oPart [(1, some ()), (2, some ())] (some ⟨0, 1, 5⟩) none
      (by decide)).2.2.2.2.1 (by decide)⟩

/-- C3: while `m_skip` is active, a fetched event is discarded: the
iteration issues no effect at all (no dispatch, no enqueue, no commit,
no checkpoint write), leaves the file, the registry, the mode, both
GTID registers and the implicit-commit flag unchanged, and does not
leave the loop. -/
theorem skip_discards_all_events (cnf : Config) (env : Env) (k : Nat) (st : Driver)
    (file : FileState) (e : REvent) (hskip : st.skip ≠ Skip.NONE)
    (hconn : st.connected = true) :
    (loop_iter cnf env k st file (.ev e)).effs = [] ∧
    (loop_iter cnf env k st file (.ev e)).file = file ∧
    (loop_iter cnf env k st file (.ev e)).k = k ∧
    (loop_iter cnf env k st file (.ev e)).st.tables = st.tables ∧
    (loop_iter cnf env k st file (.ev e)).st.state = st.state ∧
    (loop_iter cnf env k st file (.ev e)).st.current_gtid = st.current_gtid ∧
    (loop_iter cnf env k st file (.ev e)).st.gtid = st.gtid ∧
    (loop_iter cnf env k st file (.ev e)).st.implicit_commit = st.implicit_commit ∧
    (loop_iter cnf env k st file (.ev e)).brk = false := by
  have h := should_process_skip cnf env st e hskip
  simp [loop_iter, hconn, h.1, h.2.1, h.2.2.1, h.2.2.2.1, h.2.2.2.2.1,
    h.2.2.2.2.2.1]

/-- C3 witness: a rows event fetched while skipping towards `0-1-10`
leaves everything but the skip bookkeeping untouched and produces no
effect. -/
theorem skip_discards_all_events_witness :
    (loop_iter cnf0 envAllOk 0 stC4 none (.ev (.writeRows 3))).effs = [] ∧
    (loop_iter cnf0 envAllOk 0 stC4 none (.ev (.writeRows 3))).file = none ∧
    (loop_iter cnf0 envAllOk 0 stC4 none (.ev (.writeRows 3))).st.tables = stC4.tables :=
  ⟨(skip_discards_all_events cnf0 envAllOk 0 stC4 none (.writeRows 3)
      (by decide) rfl).1,
   (skip_discards_all_events cnf0 envAllOk 0 stC4 none (.writeRows 3)
      (by decide) rfl).2.1,
   (skip_discards_all_events cnf0 envAllOk 0 stC4 none (.writeRows 3)
      (by decide) rfl).2.2.2.1⟩

/-- C2 counterexample: a terminal (non-`CR_SERVER_LOST`) event-fetch
error executes `break` without touching `m_running`, so the worker
exits its loop with `m_running` still `true` — `ok()` keeps returning
true.  The trailing `Gtid` in the script stays unconsumed
(`m_current_gtid` is never set), which shows the loop really exited at
the error. -/
theorem fatal_fetch_leaves_running_counterexample :
    (process_events_loop cnf0 envAllOk
        [Fetch.fatalErr, Fetch.ev (.gtid ⟨1, 1, 1⟩ 0)] 0 st0 none []).st.running
      = true ∧
    (process_events_loop cnf0 envAllOk
        [Fetch.fatalErr, Fetch.ev (.gtid ⟨1, 1, 1⟩ 0)] 0 st0 none []).st.current_gtid
      = none := by
  decide

/-- C2 (amended): a `Gtid` strictly newer than the resume target during
skip, a table open failing, and a commit or checkpoint-write failure
(`commitResult = false` covers both) each clear `m_running` within the
iteration that encounters them; more generally any processing failure
does.  A terminal event-fetch error, by contrast, only breaks out of
the loop and leaves `m_running` true. -/
theorem fatal_conditions_clear_running (cnf : Config) (env : Env) (k : Nat)
    (st : Driver) (file : FileState) (hconn : st.connected = true) :
    (∀ t flags, st.skip ≠ Skip.NONE → some t ≠ st.gtid →
      gtid_is_newer_target st.gtid t = true →
      (loop_iter cnf env k st file (.ev (.gtid t flags))).st.running = false) ∧
    (∀ id db tbl, st.skip = Skip.NONE → cnf.tables = [] →
      env.openTable id = false →
      (loop_iter cnf env k st file (.ev (.tableMap id db tbl))).st.running = false) ∧
    (∀ n, st.skip = Skip.NONE →
      commitResult (env.commit k) st.tables = false →
      (loop_iter cnf env k st file (.ev (.xid n))).st.running = false) ∧
    (∀ e, st.skip = Skip.NONE → cnf.tables = [] →
      (process_one_event env k st file e).ok = false →
      (loop_iter cnf env k st file (.ev e)).st.running = false) := by
  refine ⟨fun t flags hskip hne hnew => ?_, fun id db tbl hskip htb hopen => ?_,
    fun n hskip hcr => ?_, fun e hskip htb hfail => ?_⟩
  · simp [loop_iter, hconn, should_process, hskip, hne, hnew]
  · simp [loop_iter, hconn, should_process, hskip, htb, process_one_event, hopen]
  · have hok := commit_transactions_ok (env.commit k) st.tables st.current_gtid file
    simp [loop_iter, hconn, should_process, hskip, process_one_event, hok, hcr]
  · have hsp : (should_process cnf env st e).1 = true ∧
        (should_process cnf env st e).2 = st := by
      unfold should_process
      cases e <;> simp [hskip, htb]
    simp [loop_iter, hconn, hsp.1, hsp.2, hfail]

/-- C2 witness: the three amended fatal conditions observed on concrete
states: a newer `Gtid` while skipping, a failed table open, and a
failed commit on `Xid` each leave `m_running = false` after the
iteration. -/
theorem fatal_conditions_clear_running_witness :
    (loop_iter cnf0 envFail 0 stC4 none (.ev (.gtid ⟨0, 1, 11⟩ 0))).st.running
      = false ∧
    (loop_iter cnf0 envFail 0 st0 none (.ev (.tableMap 7 "db" "t"))).st.running
      = false ∧
    (loop_iter cnf0 envFail 0 st0 none (.ev (.xid 4))).st.running = false ∧
    (loop_iter cnf0 envFail 0 st0 none (.ev (.tableMap 8 "d" "u"))).st.running
      = false :=
  ⟨(fatal_conditions_clear_running cnf0 envFail 0 stC4 none rfl).1 ⟨0, 1, 11⟩ 0
      (by decide) (by decide) (by decide),
   (fatal_conditions_clear_running cnf0 envFail 0 st0 none rfl).2.1 7 "db" "t"
      rfl rfl rfl,
   (fatal_conditions_clear_running cnf0 envFail 0 st0 none rfl).2.2.1 4 rfl
      (by decide),
   (fatal_conditions_clear_running cnf0 envFail 0 st0 none rfl).2.2.2
      (.tableMap 8 "d" "u") rfl rfl (by decide)⟩

/-- C5: the mode is a two-valued enum (`BULK`/`STMT`, so exactly one is
active), a `Query` arriving in `BULK` mode or a rows event with a known
table arriving in `STMT` mode runs the commit coordinator before
anything else (the first effect is the executor commit), a failed
coordinator leaves the mode unchanged and enqueues nothing, and any
mode change at all requires the coordinator invocation at index `k` to
have fully succeeded. -/
theorem mode_switch_requires_commit (env : Env) (k : Nat) (st : Driver)
    (file : FileState) :
    (∀ db stmt, st.state = DState.BULK →
      (process_one_event env k st file (.query db stmt)).effs.head?
        = some Eff.commitExecutor ∧
      (commitResult (env.commit k) st.tables = false →
        (process_one_event env k st file (.query db stmt)).st.state = DState.BULK ∧
        (process_one_event env k st file (.query db stmt)).ok = false ∧
        hasEnqExecutor (process_one_event env k st file (.query db stmt)).effs
          = false)) ∧
    (∀ id, st.state = DState.STMT → (tablesLookupInsert st.tables id).1 = some () →
      (process_one_event env k st file (.writeRows id)).effs.head?
        = some Eff.commitExecutor ∧
      (commitResult (env.commit k) st.tables = false →
        (process_one_event env k st file (.writeRows id)).st.state = DState.STMT ∧
        (process_one_event env k st file (.writeRows id)).ok = false ∧
        hasEnqTable (process_one_event env k st file (.writeRows id)).effs
          = false)) ∧
    (∀ e, (process_one_event env k st file e).st.state ≠ st.state →
      commitResult (env.commit k) st.tables = true) := by
  refine ⟨fun db stmt hb => ?_, fun id hs hl => ?_, fun e => ?_⟩
  · have hb' : ¬ st.state = DState.STMT := by
      rw [hb]; exact fun h => DState.noConfusion h
    refine ⟨?_, fun hcr => ?_⟩
    · cases hok : (commit_transactions (env.commit k) st.tables st.current_gtid
          file).ok <;>
        cases him : st.implicit_commit <;>
          simp [process_one_event, set_state, hb', hok, him,
            commit_transactions_effs]
    · have hok : (commit_transactions (env.commit k) st.tables st.current_gtid
          file).ok = false := by
        rw [commit_transactions_ok, hcr]
      simp [process_one_event, set_state, hb', hok, hb, hasEnqExecutor,
        commit_transactions_effs, List.any_eq_true]
      refine ⟨fun x a b hm hx => ?_, fun x h1 h2 hx => ?_⟩ <;> subst hx <;> rfl
  · have hl2 := tablesLookupInsert_found st.tables id () hl
    have hs' : ¬ ({ st with tables := (tablesLookupInsert st.tables id).2 }.state
        = DState.BULK) := by
      simp only [hs]; exact fun h => DState.noConfusion h
    refine ⟨?_, fun hcr => ?_⟩
    · cases hok : (commit_transactions (env.commit k)
          (tablesLookupInsert st.tables id).2 st.current_gtid file).ok <;>
        simp [process_one_event, handle_rows, hl, set_state, hs', hok,
          commit_transactions_effs]
    · have hok : (commit_transactions (env.commit k)
          (tablesLookupInsert st.tables id).2 st.current_gtid file).ok = false := by
        rw [commit_transactions_ok, hl2, hcr]
      simp [process_one_event, handle_rows, hl, set_state, hs', hok, hs,
        hasEnqTable, commit_transactions_effs, List.any_eq_true]
      refine ⟨fun x a b hm hx => ?_, fun x h1 h2 hx => ?_⟩ <;> subst hx <;> rfl
  · intro hch
    cases e with
    | gtid t flags =>
      exfalso; apply hch
      by_cases h : flags % 2 = 1 <;> simp [process_one_event, h]
    | xid n =>
      exfalso; apply hch
      cases hok : (commit_transactions (env.commit k) st.tables st.current_gtid
          file).ok <;> simp [process_one_event, hok]
    | tableMap id db tbl =>
      exfalso; apply hch
      cases h : env.openTable id <;> simp [process_one_event, h]
    | query db stmt =>
      by_cases hstmt : st.state = DState.STMT
      · exfalso; apply hch
        cases him : st.implicit_commit <;>
          cases hok : (commit_transactions (env.commit k) st.tables
            st.current_gtid file).ok <;>
            simp [process_one_event, set_state, hstmt, him, hok]
      · cases hok : (commit_transactions (env.commit k) st.tables st.current_gtid
            file).ok
        · exfalso; apply hch
          simp [process_one_event, set_state, hstmt, hok]
        · have hco := commit_transactions_ok (env.commit k) st.tables
            st.current_gtid file
          rw [← hco, hok]
    | writeRows id =>
      cases hl : (tablesLookupInsert st.tables id).1 with
      | none =>
        exfalso; apply hch
        simp [process_one_event, handle_rows, hl]
      | some v =>
        have hl2 := tablesLookupInsert_found st.tables id v hl
        by_cases hbulk : st.state = DState.BULK
        · exfalso; apply hch
          simp [process_one_event, handle_rows, hl, set_state, hbulk]
        · cases hok : (commit_transactions (env.commit k)
              (tablesLookupInsert st.tables id).2 st.current_gtid file).ok
          · exfalso; apply hch
            simp [process_one_event, handle_rows, hl, set_state, hbulk, hok]
          · rw [hl2] at hok
            have hco := commit_transactions_ok (env.commit k) st.tables
              st.current_gtid file
            rw [← hco, hok]
    | updateRows id =>
      cases hl : (tablesLookupInsert st.tables id).1 with
      | none =>
        exfalso; apply hch
        simp [process_one_event, handle_rows, hl]
      | some v =>
        have hl2 := tablesLookupInsert_found st.tables id v hl
        by_cases hbulk : st.state = DState.BULK
        · exfalso; apply hch
          simp [process_one_event, handle_rows, hl, set_state, hbulk]
        · cases hok : (commit_transactions (env.commit k)
              (tablesLookupInsert st.tables id).2 st.current_gtid file).ok
          · exfalso; apply hch
            simp [process_one_event, handle_rows, hl, set_state, hbulk, hok]
          · rw [hl2] at hok
            have hco := commit_transactions_ok (env.commit k) st.tables
              st.current_gtid file
            rw [← hco, hok]
    | deleteRows id =>
      cases hl : (tablesLookupInsert st.tables id).1 with
      | none =>
        exfalso; apply hch
        simp [process_one_event, handle_rows, hl]
      | some v =>
        have hl2 := tablesLookupInsert_found st.tables id v hl
        by_cases hbulk : st.state = DState.BULK
        · exfalso; apply hch
          simp [process_one_event, handle_rows, hl, set_state, hbulk]
        · cases hok : (commit_transactions (env.commit k)
              (tablesLookupInsert st.tables id).2 st.current_gtid file).ok
          · exfalso; apply hch
            simp [process_one_event, handle_rows, hl, set_state, hbulk, hok]
          · rw [hl2] at hok
            have hco := commit_transactions_ok (env.commit k) st.tables
              st.current_gtid file
            rw [← hco, hok]
    | other =>
      exfalso; apply hch
      simp [process_one_event]

/-- Driver state streaming in `BULK` mode with an empty registry. -/
def stBulk : Driver := { st0 with state := DState.BULK }

/-- C5 witness: a `Query` arriving in `BULK` mode under a failing
commit leaves the mode at `BULK`, fails, enqueues nothing, and the
commit coordinator was the first thing invoked; under a succeeding
commit the observed mode change comes with `commitResult = true`. -/
theorem mode_switch_requires_commit_witness :
    (process_one_event envFail 0 stBulk none (.query "db" "s")).effs.head?
      = some Eff.commitExecutor ∧
    (process_one_event envFail 0 stBulk none (.query "db" "s")).st.state
      = DState.BULK ∧
    (process_one_event envFail 0 stBulk none (.query "db" "s")).ok = false ∧
    hasEnqExecutor (process_one_event envFail 0 stBulk none (.query "db" "s")).effs
      = false ∧
    commitResult (envAllOk.commit 0) stBulk.tables = true :=
  ⟨((mode_switch_requires_commit envFail 0 stBulk none).1 "db" "s" rfl).1,
   (((mode_switch_requires_commit envFail 0 stBulk none).1 "db" "s" rfl).2
      (by decide)).1,
   (((mode_switch_requires_commit envFail 0 stBulk none).1 "db" "s" rfl).2
      (by decide)).2.1,
   (((mode_switch_requires_commit envFail 0 stBulk none).1 "db" "s" rfl).2
      (by decide)).2.2,
   (mode_switch_requires_commit envAllOk 0 stBulk none).2.2 (.query "db" "s")
      (by decide)⟩

/-- C7 (amended): the implicit-commit flag is set when a `Gtid`
carrying `IMPLICIT_COMMIT` is processed, left unchanged by a `Gtid`
without the flag (it is never reset there), cleared exactly when a
dispatched `Query` runs, and untouched by every other event.  Hence at
the moment a `Query` is dispatched the flag says that some `Gtid` since
the last dispatched `Query` carried the flag — not necessarily the
active (most recent) one. -/
theorem implicit_flag_update_rule (env : Env) (k : Nat) (st : Driver)
    (file : FileState) :
    (∀ t flags,
      (process_one_event env k st file (.gtid t flags)).st.implicit_commit
        = (st.implicit_commit || decide (flags % 2 = 1))) ∧
    (∀ db stmt,
      st.state = DState.STMT ∨ commitResult (env.commit k) st.tables = true →
      (process_one_event env k st file (.query db stmt)).st.implicit_commit
        = false) ∧
    (∀ db stmt, st.state = DState.BULK →
      commitResult (env.commit k) st.tables = false →
      (process_one_event env k st file (.query db stmt)).st.implicit_commit
        = st.implicit_commit) ∧
    (∀ n, (process_one_event env k st file (.xid n)).st.implicit_commit
        = st.implicit_commit) ∧
    (∀ id db tbl,
      (process_one_event env k st file (.tableMap id db tbl)).st.implicit_commit
        = st.implicit_commit) ∧
    (∀ id, (process_one_event env k st file (.writeRows id)).st.implicit_commit
        = st.implicit_commit) ∧
    ((process_one_event env k st file .other).st.implicit_commit
        = st.implicit_commit) := by
  have hrows : ∀ id e,
      (handle_rows env k st file id e).st.implicit_commit = st.implicit_commit := by
    intro id e
    cases hl : (tablesLookupInsert st.tables id).1 with
    | none => simp [handle_rows, hl]
    | some v =>
      by_cases hb : st.state = DState.BULK
      · simp [handle_rows, hl, set_state, hb]
      · cases hok : (commit_transactions (env.commit k)
            (tablesLookupInsert st.tables id).2 st.current_gtid file).ok <;>
          simp [handle_rows, hl, set_state, hb, hok]
  refine ⟨fun t flags => ?_, fun db stmt hd => ?_, fun db stmt hb hcr => ?_,
    fun n => ?_, fun id db tbl => ?_, fun id => hrows id (.writeRows id), ?_⟩
  · by_cases h : flags % 2 = 1 <;> simp [process_one_event, h]
  · by_cases hstmt : st.state = DState.STMT
    · cases him : st.implicit_commit <;>
        simp [process_one_event, set_state, hstmt, him]
    · have hok : (commit_transactions (env.commit k) st.tables st.current_gtid
          file).ok = true := by
        rw [commit_transactions_ok]
        rcases hd with hd | hd
        · exact absurd hd hstmt
        · exact hd
      cases him : st.implicit_commit <;>
        simp [process_one_event, set_state, hstmt, hok, him]
  · have hstmt : ¬ st.state = DState.STMT := by
      rw [hb]; exact fun h => DState.noConfusion h
    have hok : (commit_transactions (env.commit k) st.tables st.current_gtid
        file).ok = false := by
      rw [commit_transactions_ok, hcr]
    simp [process_one_event, set_state, hstmt, hok]
  · cases hok : (commit_transactions (env.commit k) st.tables st.current_gtid
        file).ok <;> simp [process_one_event, hok]
  · cases h : env.openTable id <;> simp [process_one_event, h]
  · simp [process_one_event]

/-- C7 counterexample: after `Gtid 0-1-11` with `IMPLICIT_COMMIT` whose
statement never reaches the dispatcher, followed by `Gtid 0-1-12`
without the flag, the flag is still `true`; dispatching the next
`Query` then runs the implicit-commit path (a checkpoint-write attempt
occurs) although the active `Gtid` carried no `IMPLICIT_COMMIT`. -/
theorem implicit_flag_stale_counterexample :
    (process_events_loop cnf0 envAllOk
        [Fetch.ev (.gtid ⟨0, 1, 11⟩ 1), Fetch.ev (.gtid ⟨0, 1, 12⟩ 0)]
        0 st0 none []).st.implicit_commit = true ∧
    hasSaveAttempt (process_events_loop cnf0 envAllOk
        [Fetch.ev (.gtid ⟨0, 1, 11⟩ 1), Fetch.ev (.gtid ⟨0, 1, 12⟩ 0),
         Fetch.ev (.query "db" "stmt")] 0 st0 none []).effs = true := by
  decide

/-- C7 witness: the amended update rule observed concretely: a flagged
`Gtid` raises the flag, an unflagged one keeps it raised, and a
dispatched `Query` clears it. -/
theorem implicit_flag_update_rule_witness :
    (process_one_event envAllOk 0 st0 none (.gtid ⟨0, 1, 11⟩ 1)).st.implicit_commit
      = true ∧
    (process_one_event envAllOk 0 { st0 with implicit_commit := true } none
        (.gtid ⟨0, 1, 12⟩ 0)).st.implicit_commit = true ∧
    (process_one_event envAllOk 0 { st0 with implicit_commit := true } none
        (.query "db" "s")).st.implicit_commit = false :=
  ⟨by
    have h := (implicit_flag_update_rule envAllOk 0 st0 none).1 ⟨0, 1, 11⟩ 1
    simpa using h,
   by
    have h := (implicit_flag_update_rule envAllOk 0
      { st0 with implicit_commit := true } none).1 ⟨0, 1, 12⟩ 0
    simpa using h,
   (implicit_flag_update_rule envAllOk 0 { st0 with implicit_commit := true }
      none).2.1 "db" "s" (Or.inl rfl)⟩

/-- C10: on the implicit-commit path of a `Query`, `m_gtid` is assigned
`m_current_gtid` before the commit is attempted, so a failing commit
leaves the in-memory resume TID advanced while the on-disk checkpoint
is untouched; on the `Xid` path a failing commit leaves `m_gtid` and
the checkpoint untouched, and `m_gtid` advances exactly when the commit
succeeds. -/
theorem implicit_path_gtid_advance (env : Env) (k : Nat) (st : Driver)
    (file : FileState) :
    (∀ db stmt, st.state = DState.STMT → st.implicit_commit = true →
      commitResult (env.commit k) st.tables = false →
      (process_one_event env k st file (.query db stmt)).st.gtid
        = st.current_gtid ∧
      (process_one_event env k st file (.query db stmt)).file = file ∧
      (process_one_event env k st file (.query db stmt)).ok = false) ∧
    (∀ n, commitResult (env.commit k) st.tables = false →
      (process_one_event env k st file (.xid n)).st.gtid = st.gtid ∧
      (process_one_event env k st file (.xid n)).file = file ∧
      (process_one_event env k st file (.xid n)).ok = false) ∧
    (∀ n, commitResult (env.commit k) st.tables = true →
      (process_one_event env k st file (.xid n)).st.gtid = st.current_gtid) := by
  refine ⟨fun db stmt hstmt him hcr => ?_, fun n hcr => ?_, fun n hcr => ?_⟩
  · have hok : (commit_transactions (env.commit k) st.tables st.current_gtid
        file).ok = false := by
      rw [commit_transactions_ok, hcr]
    have hfile := commit_transactions_file (env.commit k) st.tables
      st.current_gtid file
    rw [hcr] at hfile
    simp [process_one_event, set_state, hstmt, him, hok, hfile]
  · have hok : (commit_transactions (env.commit k) st.tables st.current_gtid
        file).ok = false := by
      rw [commit_transactions_ok, hcr]
    have hfile := commit_transactions_file (env.commit k) st.tables
      st.current_gtid file
    rw [hcr] at hfile
    simp [process_one_event, hok, hfile]
  · have hok : (commit_transactions (env.commit k) st.tables st.current_gtid
        file).ok = true := by
      rw [commit_transactions_ok, hcr]
    simp [process_one_event, hok]

/-- Driver state processing transaction `0-1-7` with a pending
implicit commit. -/
def stImp : Driver :=
  { st0 with implicit_commit := true, current_gtid := some ⟨0, 1, 7⟩ }

/-- C10 witness: under a failing commit the implicit path advances
`m_gtid` to `0-1-7` with the checkpoint file untouched, while the `Xid`
path leaves `m_gtid` unchanged; under a succeeding commit the `Xid`
path advances it. -/
theorem implicit_path_gtid_advance_witness :
    (process_one_event envFail 0 stImp none (.query "db" "s")).st.gtid
      = some ⟨0, 1, 7⟩ ∧
    (process_one_event envFail 0 stImp none (.query "db" "s")).file = none ∧
    (process_one_event envFail 0 stImp none (.xid 3)).st.gtid = none ∧
    (process_one_event envAllOk 0 stImp none (.xid 3)).st.gtid
      = some ⟨0, 1, 7⟩ :=
  ⟨((implicit_path_gtid_advance envFail 0 stImp none).1 "db" "s" rfl rfl
      (by decide)).1,
   ((implicit_path_gtid_advance envFail 0 stImp none).1 "db" "s" rfl rfl
      (by decide)).2.1,
   ((implicit_path_gtid_advance envFail 0 stImp none).2.1 3 (by decide)).1,
   (implicit_path_gtid_advance envAllOk 0 stImp none).2.2 3 (by decide)⟩

end Cdc
